import Mathlib

/-!
Shallow embedding of `calculate_probabilities` from
`Desktop/python_developer_test/calculate_probabilities.py`, a multinomial
logit probability routine.  The Python function validates that every
observation sequence has the first variable's length, evaluates each
utility function at each observation, applies an (unshifted) softmax per
observation, asserts that each observation's probabilities sum to 1 within
1e-6, and returns a dict keyed "P1".."Pm".  The whole body sits inside a
generic `try/except Exception` that prints the error and returns `None`.

Python dicts are modelled as association lists (insertion order preserved,
matching dict iteration), floats as real numbers, a utility function that
may raise as `Params → DataPoint → Option ℝ` (`none` models raising), and
the generic exception handler as the collapse of the inner `Except` result
to `Option`.
-/

/-- A coefficient dictionary (the `parameters` argument). -/
abbrev Params := List (String × ℝ)

/-- A single-observation view: variable name ↦ scalar at one index. -/
abbrev DataPoint := List (String × ℝ)

/-- A user-supplied utility function; `none` models the function raising. -/
abbrev Utility := Params → DataPoint → Option ℝ

/-- The exceptions the Python body can raise inside its `try` block. -/
inductive PyError where
  | stopIteration
  | shapeError (key : String) (expected actual : Nat)
  | evalError
  | assertionError (i : Nat)
deriving DecidableEq

/-- Mirrors the validation loop `for key, values in data.items(): if
len(values) != n_points: raise ValueError(...)`: first variable whose
sequence length differs from `nPoints`, with its actual length. -/
def findShapeError (nPoints : Nat) : List (String × List ℝ) → Option (String × Nat)
  | [] => none
  | (k, vs) :: rest =>
    if vs.length ≠ nPoints then some (k, vs.length) else findShapeError nPoints rest

/-- Mirrors `data_point = {key: values[i] for key, values in data.items()}`.
The default 0 is never read on the paths the code reaches (indices are in
range once shape validation has passed). -/
def dataPointAt (data : List (String × List ℝ)) (i : Nat) : DataPoint :=
  data.map (fun kv => (kv.1, kv.2.getD i 0))

/-- Maps a fallible function over a list, `none` as soon as any element
fails (exception propagation out of a Python loop). -/
def mapOpt {α β : Type} (f : α → Option β) : List α → Option (List β)
  | [] => some []
  | a :: t =>
    match f a, mapOpt f t with
    | some b, some bs => some (b :: bs)
    | _, _ => none

/-- The row of utility values `[u(params, data_point_0), ...,
u(params, data_point_(n-1))]` for one alternative; `none` if any call raises. -/
def evalRow (params : Params) (data : List (String × List ℝ)) (n : Nat)
    (u : Utility) : Option (List ℝ) :=
  mapOpt (fun i => u params (dataPointAt data i)) (List.range n)

/-- The utility matrix `V1..Vm` (row per alternative, column per
observation); `none` if any utility call raises. -/
def evalUtilities (params : Params) (data : List (String × List ℝ))
    (utilities : List Utility) (n : Nat) : Option (List (List ℝ)) :=
  mapOpt (evalRow params data n) utilities

/-- `sum_exp` for observation `i`: the sum over alternatives of
`exp(V[j][i])`. -/
noncomputable def expColSum (V : List (List ℝ)) (i : Nat) : ℝ :=
  (V.map (fun row => Real.exp (row.getD i 0))).sum

/-- The probability table as a list of rows: row `j` holds
`exp(V[j][i]) / sum_exp_i` for `i` in `range n`. -/
noncomputable def computeProbs (V : List (List ℝ)) (n : Nat) : List (List ℝ) :=
  V.map (fun row => (List.range n).map (fun i => Real.exp (row.getD i 0) / expColSum V i))

/-- `total` in the validation loop: the sum over alternatives of `P[j][i]`. -/
noncomputable def probColSum (P : List (List ℝ)) (i : Nat) : ℝ :=
  (P.map (fun row => row.getD i 0)).sum

open Classical in
/-- Mirrors the assertion loop `for i in range(n_points): assert
abs(total - 1) < 1e-6`, failing with the first bad index. -/
noncomputable def checkFrom (P : List (List ℝ)) : List Nat → Except PyError Unit
  | [] => .ok ()
  | i :: rest =>
    if |probColSum P i - 1| < 1e-6 then checkFrom P rest
    else .error (.assertionError i)

/-- The result keys `"P1".."Pm"`. -/
def probKeys (m : Nat) : List String :=
  (List.range m).map (fun j => "P" ++ toString (j + 1))

/-- The body of the `try` block: shape validation, utility evaluation,
softmax, assertion, and the returned dict keyed `"P1".."Pm"`. -/
noncomputable def calculate_probabilities_inner (parameters : Params)
    (data : List (String × List ℝ)) (utilities : List Utility) :
    Except PyError (List (String × List ℝ)) :=
  match data with
  | [] => .error .stopIteration
  | (_, vs₀) :: _ =>
    match findShapeError vs₀.length data with
    | some (k, got) => .error (.shapeError k vs₀.length got)
    | none =>
      match evalUtilities parameters data utilities vs₀.length with
      | none => .error .evalError
      | some V =>
        let P := computeProbs V vs₀.length
        match checkFrom P (List.range vs₀.length) with
        | .error e => .error e
        | .ok _ => .ok ((probKeys utilities.length).zip P)

/-- The full `calculate_probabilities`: the generic `except Exception`
handler prints and returns `None`, so every raised exception collapses to
`none`. -/
noncomputable def calculate_probabilities (parameters : Params)
    (data : List (String × List ℝ)) (utilities : List Utility) :
    Option (List (String × List ℝ)) :=
  match calculate_probabilities_inner parameters data utilities with
  | .ok P => some P
  | .error _ => none

/-- The probability of alternative `j` (0-based) at observation `i` in a
returned table. -/
def probAt (T : List (String × List ℝ)) (j i : Nat) : ℝ :=
  ((T.getD j ("", [])).2).getD i 0

/-- The utility value of alternative `j` at observation `i` in a utility
matrix. -/
def vAt (V : List (List ℝ)) (j i : Nat) : ℝ :=
  (V.getD j []).getD i 0

/-! ### Concrete utility functions used by witnesses and counterexamples -/

/-- A utility function returning a constant (never raises). -/
def uConst (c : ℝ) : Utility := fun _ _ => some c

/-- A utility function reading one variable of the observation; raises
(`none`) when the variable is absent. -/
def uLookup (x : String) : Utility := fun _ dp => dp.lookup x

/-- A utility function that always raises. -/
def uFail : Utility := fun _ _ => none

/-! ### Basic list access lemmas -/

lemma getD_map_lt {α β : Type} (f : α → β) (l : List α) (j : Nat)
    (hj : j < l.length) (d : β) (d' : α) :
    (l.map f).getD j d = f (l.getD j d') := by
  induction l generalizing j with
  | nil => simp at hj
  | cons a t ih =>
    cases j with
    | zero => rfl
    | succ j =>
      simp only [List.map_cons, List.getD_cons_succ]
      exact ih j (by simpa using hj) 

lemma getD_range_lt (n i : Nat) (hi : i < n) (d : Nat) :
    (List.range n).getD i d = i := by
  have h : i < (List.range n).length := by simpa using hi
  rw [List.getD_eq_getElem (List.range n) d h]
  simp

lemma rangeMap_getD {β : Type} (f : Nat → β) (n i : Nat) (hi : i < n) (d : β) :
    ((List.range n).map f).getD i d = f i := by
  rw [getD_map_lt f (List.range n) i (by simpa using hi) d 0, getD_range_lt n i hi 0]

lemma zip_getD_snd (l₁ : List String) (l₂ : List (List ℝ)) (j : Nat)
    (hj : j < l₂.length) (hlen : l₂.length ≤ l₁.length) :
    ((l₁.zip l₂).getD j ("", [])).2 = l₂.getD j [] := by
  induction l₂ generalizing l₁ j with
  | nil => simp at hj
  | cons b t ih =>
    cases l₁ with
    | nil => simp at hlen
    | cons a s =>
      cases j with
      | zero => rfl
      | succ j =>
        simp only [List.zip_cons_cons, List.getD_cons_succ]
        exact ih s j (by simpa using hj) (by simpa using hlen)

lemma zip_map_snd {α β γ : Type} (g : β → γ) (l₁ : List α) (l₂ : List β)
    (hlen : l₁.length = l₂.length) :
    ((l₁.zip l₂).map (fun kv => g kv.2)) = l₂.map g := by
  induction l₂ generalizing l₁ with
  | nil =>
    cases l₁ with
    | nil => rfl
    | cons a s => simp at hlen
  | cons b t ih =>
    cases l₁ with
    | nil => simp at hlen
    | cons a s =>
      simp only [List.zip_cons_cons, List.map_cons]
      rw [ih s (by simpa using hlen)]

lemma zip_map_fst {α β : Type} (l₁ : List α) (l₂ : List β)
    (hlen : l₁.length = l₂.length) :
    ((l₁.zip l₂).map Prod.fst) = l₁ := by
  induction l₁ generalizing l₂ with
  | nil => rfl
  | cons a s ih =>
    cases l₂ with
    | nil => simp at hlen
    | cons b t =>
      simp only [List.zip_cons_cons, List.map_cons]
      rw [ih t (by simpa using hlen)]

lemma mapOpt_length {α β : Type} (f : α → Option β) (l : List α)
    (l' : List β) (h : mapOpt f l = some l') : l'.length = l.length := by
  induction l generalizing l' with
  | nil => cases h; rfl
  | cons a t ih =>
    simp only [mapOpt] at h
    cases hfa : f a with
    | none => rw [hfa] at h; exact absurd h (by simp)
    | some b =>
      rw [hfa] at h
      cases hft : mapOpt f t with
      | none => rw [hft] at h; exact absurd h (by simp)
      | some t' =>
        rw [hft] at h
        cases h
        simp [ih t' hft]

lemma list_sum_getD (l : List ℝ) :
    l.sum = ∑ i ∈ Finset.range l.length, l.getD i 0 := by
  induction l with
  | nil => simp
  | cons a t ih =>
    simp only [List.sum_cons, List.length_cons]
    rw [Finset.sum_range_succ', ih]
    simp [add_comm]

/-! ### Softmax column facts -/

lemma expColSum_pos (V : List (List ℝ)) (i : Nat) (hV : V ≠ []) :
    0 < expColSum V i := by
  cases V with
  | nil => exact absurd rfl hV
  | cons r t =>
    simp only [expColSum, List.map_cons, List.sum_cons]
    have h1 : 0 < Real.exp (r.getD i 0) := Real.exp_pos _
    have h2 : 0 ≤ (t.map (fun row => Real.exp (row.getD i 0))).sum := by
      refine List.sum_nonneg ?_
      intro x hx
      simp only [List.mem_map] at hx
      obtain ⟨row, _, rfl⟩ := hx
      exact (Real.exp_pos _).le
    linarith

lemma probColSum_computeProbs (V : List (List ℝ)) (n : Nat) (hV : V ≠ [])
    (i : Nat) (hi : i < n) : probColSum (computeProbs V n) i = 1 := by
  have hS := expColSum_pos V i hV
  have step : (computeProbs V n).map (fun row => row.getD i 0)
      = V.map (fun row => Real.exp (row.getD i 0) * (expColSum V i)⁻¹) := by
    simp only [computeProbs, List.map_map]
    refine List.map_congr_left ?_
    intro row _
    simp only [Function.comp]
    rw [rangeMap_getD _ n i hi 0, div_eq_mul_inv]
  rw [probColSum, step, List.sum_map_mul_right]
  exact mul_inv_cancel₀ (ne_of_gt hS)

lemma checkFrom_ok (P : List (List ℝ)) (l : List Nat)
    (h : ∀ i ∈ l, |probColSum P i - 1| < 1e-6) : checkFrom P l = .ok () := by
  induction l with
  | nil => rfl
  | cons i rest ih =>
    rw [checkFrom, if_pos (h i (by simp))]
    exact ih (fun i' hi' => h i' (by simp [hi']))

lemma findShapeError_eq_none (n : Nat) (l : List (String × List ℝ))
    (h : ∀ kv ∈ l, kv.2.length = n) : findShapeError n l = none := by
  induction l with
  | nil => rfl
  | cons kv rest ih =>
    obtain ⟨k, vs⟩ := kv
    simp only [findShapeError]
    rw [if_neg (by simp [h (k, vs) (by simp)])]
    exact ih (fun kv' hkv' => h kv' (by simp [hkv'])) 

/-! ### Master lemma: the value returned on valid inputs -/

lemma calculate_probabilities_eq_some (p : Params) (k₀ : String) (vs₀ : List ℝ)
    (rest : List (String × List ℝ)) (utilities : List Utility) (V : List (List ℝ))
    (hshape : ∀ kv ∈ (k₀, vs₀) :: rest, kv.2.length = vs₀.length)
    (hne : utilities ≠ [])
    (heval : evalUtilities p ((k₀, vs₀) :: rest) utilities vs₀.length = some V) :
    calculate_probabilities p ((k₀, vs₀) :: rest) utilities =
      some ((probKeys utilities.length).zip (computeProbs V vs₀.length)) := by
  have hlen : V.length = utilities.length := mapOpt_length _ _ _ heval
  have hVne : V ≠ [] := by
    intro hV
    subst hV
    simp only [List.length_nil] at hlen
    exact hne (List.length_eq_zero.mp hlen.symm)
  have hfind : findShapeError vs₀.length ((k₀, vs₀) :: rest) = none :=
    findShapeError_eq_none _ _ hshape
  have hcheck : checkFrom (computeProbs V vs₀.length) (List.range vs₀.length) = .ok () := by
    refine checkFrom_ok _ _ ?_
    intro i hi
    rw [probColSum_computeProbs V vs₀.length hVne i (by simpa using hi)]
    norm_num
  simp only [calculate_probabilities, calculate_probabilities_inner, hfind, heval, hcheck]

lemma probAt_zip_computeProbs (V : List (List ℝ)) (n m j i : Nat)
    (hm : V.length = m) (hj : j < m) (hi : i < n) :
    probAt ((probKeys m).zip (computeProbs V n)) j i
      = Real.exp (vAt V j i) / expColSum V i := by
  have hlenP : (computeProbs V n).length = V.length := by simp [computeProbs]
  have hkeys : (probKeys m).length = m := by simp [probKeys]
  rw [probAt, zip_getD_snd _ _ j (by rw [hlenP, hm]; exact hj)
    (by rw [hlenP, hm, hkeys])]
  rw [computeProbs, getD_map_lt _ V j (by rw [hm]; exact hj) _ []]
  rw [rangeMap_getD _ n i hi 0]
  rfl

lemma rowLen_zip_computeProbs (V : List (List ℝ)) (n m j : Nat)
    (hm : V.length = m) (hj : j < m) :
    (((probKeys m).zip (computeProbs V n)).getD j ("", [])).2.length = n := by
  have hlenP : (computeProbs V n).length = V.length := by simp [computeProbs]
  have hkeys : (probKeys m).length = m := by simp [probKeys]
  rw [zip_getD_snd _ _ j (by rw [hlenP, hm]; exact hj) (by rw [hlenP, hm, hkeys])]
  rw [computeProbs, getD_map_lt _ V j (by rw [hm]; exact hj) _ []]
  simp

/-! ### Monotonicity machinery -/

lemma expColSum_eq_sum_range (V : List (List ℝ)) (i : Nat) :
    expColSum V i = ∑ j ∈ Finset.range V.length, Real.exp (vAt V j i) := by
  rw [expColSum, list_sum_getD, List.length_map]
  refine Finset.sum_congr rfl ?_
  intro j hj
  rw [Finset.mem_range] at hj
  rw [getD_map_lt _ V j hj 0 []]
  rfl

lemma softmax_frac_mono (a b c : ℝ) (h₁ : 0 < a) (h₂ : a < b) (h₃ : 0 < c) :
    a / (a + c) < b / (b + c) := by
  rw [div_lt_div_iff₀ (by linarith) (by linarith)]
  nlinarith

lemma softmax_strict_mono (V W : List (List ℝ)) (m j i : Nat)
    (hmV : V.length = m) (hmW : W.length = m) (hm : 2 ≤ m) (hj : j < m)
    (hgt : vAt V j i < vAt W j i)
    (hoth : ∀ k, k < m → k ≠ j → vAt W k i = vAt V k i) :
    Real.exp (vAt V j i) / expColSum V i < Real.exp (vAt W j i) / expColSum W i ∧
    ∀ k, k < m → k ≠ j →
      Real.exp (vAt W k i) / expColSum W i < Real.exp (vAt V k i) / expColSum V i := by
  have haa : Real.exp (vAt V j i) < Real.exp (vAt W j i) := Real.exp_lt_exp.mpr hgt
  have hmem : j ∈ Finset.range m := Finset.mem_range.mpr hj
  have hS : expColSum V i
      = Real.exp (vAt V j i) + ∑ k ∈ (Finset.range m).erase j, Real.exp (vAt V k i) := by
    rw [expColSum_eq_sum_range, hmV, ← Finset.add_sum_erase _ _ hmem]
  have hCeq : ∑ k ∈ (Finset.range m).erase j, Real.exp (vAt W k i)
      = ∑ k ∈ (Finset.range m).erase j, Real.exp (vAt V k i) := by
    refine Finset.sum_congr rfl ?_
    intro k hk
    rw [hoth k (Finset.mem_range.mp (Finset.mem_of_mem_erase hk)) (Finset.ne_of_mem_erase hk)]
  have hS' : expColSum W i
      = Real.exp (vAt W j i) + ∑ k ∈ (Finset.range m).erase j, Real.exp (vAt V k i) := by
    rw [expColSum_eq_sum_range, hmW, ← Finset.add_sum_erase _ _ hmem, hCeq]
  have hCpos : 0 < ∑ k ∈ (Finset.range m).erase j, Real.exp (vAt V k i) := by
    refine Finset.sum_pos (fun k _ => Real.exp_pos _) ?_
    rw [← Finset.card_pos, Finset.card_erase_of_mem hmem, Finset.card_range]
    omega
  constructor
  · rw [hS, hS']
    exact softmax_frac_mono _ _ _ (Real.exp_pos _) haa hCpos
  · intro k hk hkj
    rw [hS, hS', hoth k hk hkj]
    exact div_lt_div_of_pos_left (Real.exp_pos _) (by positivity) (by linarith)

/-! ### Error paths of the try block -/

lemma inner_error_to_none (p : Params) (data : List (String × List ℝ))
    (utilities : List Utility) (e : PyError)
    (h : calculate_probabilities_inner p data utilities = .error e) :
    calculate_probabilities p data utilities = none := by
  rw [calculate_probabilities, h]

lemma inner_shape_error (p : Params) (k₀ : String) (vs₀ : List ℝ)
    (rest : List (String × List ℝ)) (utilities : List Utility)
    (k : String) (got : Nat)
    (hfind : findShapeError vs₀.length ((k₀, vs₀) :: rest) = some (k, got)) :
    calculate_probabilities_inner p ((k₀, vs₀) :: rest) utilities
      = .error (.shapeError k vs₀.length got) := by
  simp only [calculate_probabilities_inner, hfind]

lemma inner_eval_error (p : Params) (k₀ : String) (vs₀ : List ℝ)
    (rest : List (String × List ℝ)) (utilities : List Utility)
    (hfind : findShapeError vs₀.length ((k₀, vs₀) :: rest) = none)
    (heval : evalUtilities p ((k₀, vs₀) :: rest) utilities vs₀.length = none) :
    calculate_probabilities_inner p ((k₀, vs₀) :: rest) utilities
      = .error .evalError := by
  simp only [calculate_probabilities_inner, hfind, heval]

lemma inner_empty_utilities (p : Params) (k₀ : String) (vs₀ : List ℝ)
    (rest : List (String × List ℝ))
    (hfind : findShapeError vs₀.length ((k₀, vs₀) :: rest) = none)
    (hn : vs₀.length ≠ 0) :
    calculate_probabilities_inner p ((k₀, vs₀) :: rest) []
      = .error (.assertionError 0) := by
  have heval : evalUtilities p ((k₀, vs₀) :: rest) [] vs₀.length = some [] := rfl
  have hcheck : checkFrom (computeProbs [] vs₀.length) (List.range vs₀.length)
      = .error (.assertionError 0) := by
    obtain ⟨m₀, hm₀⟩ := Nat.exists_eq_succ_of_ne_zero hn
    rw [hm₀, List.range_succ_eq_map, checkFrom]
    rw [if_neg ?_]
    have h0 : probColSum (computeProbs [] (m₀ + 1)) 0 = 0 := rfl
    rw [h0]
    norm_num
  simp only [calculate_probabilities_inner, hfind, heval, hcheck]

/-! ### Claim theorems -/

/-- Claim C9: on an empty observations mapping, the `StopIteration` raised
by `next(iter(data.values()))` is caught by the generic handler and
`calculate_probabilities` returns `None`; the internal fault is
`StopIteration`, not a shape-validation error naming a variable, and the
result does not depend on the utility functions (none is invoked). -/
theorem C9_empty_data (p : Params) (utilities : List Utility) :
    calculate_probabilities_inner p [] utilities = .error .stopIteration ∧
    calculate_probabilities p [] utilities = none ∧
    ∀ k e g, calculate_probabilities_inner p [] utilities ≠ .error (.shapeError k e g) := by
  refine ⟨rfl, rfl, ?_⟩
  intro k e g h
  have h' : (Except.error .stopIteration : Except PyError (List (String × List ℝ)))
      = .error (.shapeError k e g) := h
  simp at h'

/-- Claim C10: with no utility functions (`m = 0`) and at least one
observation, the per-observation probability total is the empty sum 0, the
`assert abs(total - 1) < 1e-6` fails at observation 0, and the caught
`AssertionError` makes `calculate_probabilities` return `None` rather than
an empty table. -/
theorem C10_empty_utilities (p : Params) (k₀ : String) (vs₀ : List ℝ)
    (rest : List (String × List ℝ))
    (hshape : ∀ kv ∈ (k₀, vs₀) :: rest, kv.2.length = vs₀.length)
    (hn : vs₀.length ≠ 0) :
    probColSum (computeProbs [] vs₀.length) 0 = 0 ∧
    calculate_probabilities_inner p ((k₀, vs₀) :: rest) [] = .error (.assertionError 0) ∧
    calculate_probabilities p ((k₀, vs₀) :: rest) [] = none := by
  have hfind := findShapeError_eq_none _ _ hshape
  have h := inner_empty_utilities p k₀ vs₀ rest hfind hn
  exact ⟨rfl, h, inner_error_to_none _ _ _ _ h⟩

/-- Witness for C10 at the concrete input `{"X": [0]}` with no utility
functions. -/
theorem C10_empty_utilities_witness :
    (∀ kv ∈ [("X", ([0] : List ℝ))], kv.2.length = 1) ∧ (1 : Nat) ≠ 0 ∧
    (probColSum (computeProbs [] 1) 0 = 0 ∧
      calculate_probabilities_inner [] [("X", [0])] [] = .error (.assertionError 0) ∧
      calculate_probabilities [] [("X", [0])] [] = none) := by
  have h1 : ∀ kv ∈ [("X", ([0] : List ℝ))], kv.2.length = 1 := by
    intro kv hkv
    rcases List.mem_singleton.mp hkv with rfl
    rfl
  exact ⟨h1, by decide, C10_empty_utilities [] "X" [0] [] h1 (by decide)⟩

/-- Claim C2 counterexample: on the spec's own mismatched-shape scenario
`{"X1": [1,2,3], "X2": [1,2]}`, `calculate_probabilities` does not fail
with a shape error visible to the caller — the generic handler catches the
internal `ValueError` and the caller receives the bare `None`, which names
no variable and no lengths. -/
theorem C2_counterexample :
    calculate_probabilities [] [("X1", [1, 2, 3]), ("X2", [1, 2])] [uConst 0] = none := rfl

/-- Claim C2 as amended: on a shape mismatch the `try` body raises a
`ValueError` naming the first offending variable, its expected length
(the first variable's) and its actual length, before any utility function
is invoked (the fault is the same for every `utilities` argument), but the
generic handler then catches it so `calculate_probabilities` returns
`None`. -/
theorem C2_shape_mismatch (p : Params) (k₀ : String) (vs₀ : List ℝ)
    (rest : List (String × List ℝ)) (k : String) (got : Nat)
    (hfind : findShapeError vs₀.length ((k₀, vs₀) :: rest) = some (k, got)) :
    ∀ utilities : List Utility,
      calculate_probabilities_inner p ((k₀, vs₀) :: rest) utilities
        = .error (.shapeError k vs₀.length got) ∧
      calculate_probabilities p ((k₀, vs₀) :: rest) utilities = none := by
  intro utilities
  have h := inner_shape_error p k₀ vs₀ rest utilities k got hfind
  exact ⟨h, inner_error_to_none _ _ _ _ h⟩

/-- Witness for C2 on the spec's scenario; the utility list contains a
function that raises whenever invoked, and the shape fault still wins. -/
theorem C2_shape_mismatch_witness :
    findShapeError 3 [("X1", ([1, 2, 3] : List ℝ)), ("X2", [1, 2])] = some ("X2", 2) ∧
    (calculate_probabilities_inner [] [("X1", [1, 2, 3]), ("X2", [1, 2])] [uFail]
        = .error (.shapeError "X2" 3 2) ∧
      calculate_probabilities [] [("X1", [1, 2, 3]), ("X2", [1, 2])] [uFail] = none) :=
  ⟨rfl, C2_shape_mismatch [] "X1" [1, 2, 3] [("X2", [1, 2])] "X2" 2 rfl [uFail]⟩

/-- Claim C3 counterexample: a shape-mismatch input and an input whose
utility function raises both produce exactly the same caller-visible
outcome `None`; the two fault kinds are not distinguishable to the
caller. -/
theorem C3_counterexample :
    calculate_probabilities [] [("X1", [1, 2]), ("X2", [1])] [uConst 0] = none ∧
    calculate_probabilities [] [("X", [0])] [uFail] = none := ⟨rfl, rfl⟩

/-- Claim C3 as amended: inside the `try` body the two fault kinds are
distinguishable exceptions — a `ValueError` carrying the variable and
lengths for a shape mismatch, and the utility function's own exception
during evaluation — but the generic `except Exception` handler catches
both, so `calculate_probabilities` returns the single generic outcome
`None` in both cases. -/
theorem C3_faults_masked (p q : Params) (k₀ : String) (vs₀ : List ℝ)
    (rest : List (String × List ℝ)) (utilities : List Utility)
    (k : String) (got : Nat)
    (l₀ : String) (ws₀ : List ℝ) (rest' : List (String × List ℝ))
    (utilities' : List Utility)
    (hfind : findShapeError vs₀.length ((k₀, vs₀) :: rest) = some (k, got))
    (hfind' : findShapeError ws₀.length ((l₀, ws₀) :: rest') = none)
    (heval' : evalUtilities q ((l₀, ws₀) :: rest') utilities' ws₀.length = none) :
    calculate_probabilities_inner p ((k₀, vs₀) :: rest) utilities
      = .error (.shapeError k vs₀.length got) ∧
    calculate_probabilities_inner q ((l₀, ws₀) :: rest') utilities' = .error .evalError ∧
    (PyError.shapeError k vs₀.length got ≠ .evalError) ∧
    calculate_probabilities p ((k₀, vs₀) :: rest) utilities = none ∧
    calculate_probabilities q ((l₀, ws₀) :: rest') utilities' = none := by
  have h1 := inner_shape_error p k₀ vs₀ rest utilities k got hfind
  have h2 := inner_eval_error q l₀ ws₀ rest' utilities' hfind' heval'
  exact ⟨h1, h2, by simp, inner_error_to_none _ _ _ _ h1, inner_error_to_none _ _ _ _ h2⟩

/-- Witness for C3: the shape fault on `{"X1": [1,2,3], "X2": [1,2]}` and
the evaluation fault of an always-raising utility on `{"X": [0]}`. -/
theorem C3_faults_masked_witness :
    findShapeError 3 [("X1", ([1, 2, 3] : List ℝ)), ("X2", [1, 2])] = some ("X2", 2) ∧
    findShapeError 1 [("X", ([0] : List ℝ))] = none ∧
    evalUtilities [] [("X", [0])] [uFail] 1 = none ∧
    (calculate_probabilities_inner [] [("X1", [1, 2, 3]), ("X2", [1, 2])] [uConst 0]
        = .error (.shapeError "X2" 3 2) ∧
      calculate_probabilities_inner [] [("X", [0])] [uFail] = .error .evalError ∧
      (PyError.shapeError "X2" 3 2 ≠ .evalError) ∧
      calculate_probabilities [] [("X1", [1, 2, 3]), ("X2", [1, 2])] [uConst 0] = none ∧
      calculate_probabilities [] [("X", [0])] [uFail] = none) :=
  ⟨rfl, rfl, rfl,
    C3_faults_masked [] [] "X1" [1, 2, 3] [("X2", [1, 2])] [uConst 0] "X2" 2
      "X" [0] [] [uFail] rfl rfl rfl⟩

/-- Claim C1: on a non-empty observations mapping all of whose sequences
have the first variable's length, a non-empty utilities list, and utility
evaluations that all succeed, the returned table satisfies the simplex
property: at every observation index `i` the probabilities of the `m`
alternatives sum to 1 within 1e-6. -/
theorem C1_simplex (p : Params) (k₀ : String) (vs₀ : List ℝ)
    (rest : List (String × List ℝ)) (utilities : List Utility) (V : List (List ℝ))
    (hshape : ∀ kv ∈ (k₀, vs₀) :: rest, kv.2.length = vs₀.length)
    (hne : utilities ≠ [])
    (heval : evalUtilities p ((k₀, vs₀) :: rest) utilities vs₀.length = some V) :
    ∃ T, calculate_probabilities p ((k₀, vs₀) :: rest) utilities = some T ∧
      ∀ i < vs₀.length, |(T.map (fun kv => kv.2.getD i 0)).sum - 1| < 1e-6 := by
  refine ⟨_, calculate_probabilities_eq_some p k₀ vs₀ rest utilities V hshape hne heval, ?_⟩
  intro i hi
  have hlen : V.length = utilities.length := mapOpt_length _ _ _ heval
  have hVne : V ≠ [] := by
    intro hV
    subst hV
    simp only [List.length_nil] at hlen
    exact hne (List.length_eq_zero.mp hlen.symm)
  have hkeys : (probKeys utilities.length).length = (computeProbs V vs₀.length).length := by
    simp [probKeys, computeProbs, hlen]
  rw [zip_map_snd (fun row => row.getD i 0) _ _ hkeys]
  have h1 := probColSum_computeProbs V vs₀.length hVne i hi
  rw [probColSum] at h1
  rw [h1]
  norm_num

/-- Witness for C1 at `{"X": [0]}` with two constant utilities. -/
theorem C1_simplex_witness :
    (∀ kv ∈ [("X", ([0] : List ℝ))], kv.2.length = 1) ∧
    ([uConst 0, uConst 0] ≠ ([] : List Utility)) ∧
    evalUtilities [] [("X", [0])] [uConst 0, uConst 0] 1 = some [[0], [0]] ∧
    (∃ T, calculate_probabilities [] [("X", [0])] [uConst 0, uConst 0] = some T ∧
      ∀ i < 1, |(T.map (fun kv => kv.2.getD i 0)).sum - 1| < 1e-6) := by
  have h1 : ∀ kv ∈ [("X", ([0] : List ℝ))], kv.2.length = 1 := by
    intro kv hkv
    rcases List.mem_singleton.mp hkv with rfl
    rfl
  have h2 : [uConst 0, uConst 0] ≠ ([] : List Utility) := by simp
  have h3 : evalUtilities [] [("X", [0])] [uConst 0, uConst 0] 1 = some [[0], [0]] := rfl
  exact ⟨h1, h2, h3, C1_simplex [] "X" [0] [] [uConst 0, uConst 0] [[0], [0]] h1 h2 h3⟩

/-- Claim C6: if two alternatives' utility functions produce identical
value rows (row `j` of the utility matrix equals row `k`), the returned
probability sequences `P(j+1)` and `P(k+1)` are identical. -/
theorem C6_symmetry (p : Params) (k₀ : String) (vs₀ : List ℝ)
    (rest : List (String × List ℝ)) (utilities : List Utility) (V : List (List ℝ))
    (j k : Nat)
    (hshape : ∀ kv ∈ (k₀, vs₀) :: rest, kv.2.length = vs₀.length)
    (hne : utilities ≠ [])
    (heval : evalUtilities p ((k₀, vs₀) :: rest) utilities vs₀.length = some V)
    (hj : j < utilities.length) (hk : k < utilities.length)
    (hrow : V.getD j [] = V.getD k []) :
    ∃ T, calculate_probabilities p ((k₀, vs₀) :: rest) utilities = some T ∧
      (T.getD j ("", [])).2 = (T.getD k ("", [])).2 := by
  refine ⟨_, calculate_probabilities_eq_some p k₀ vs₀ rest utilities V hshape hne heval, ?_⟩
  have hlen : V.length = utilities.length := mapOpt_length _ _ _ heval
  have hlenP : (computeProbs V vs₀.length).length = V.length := by simp [computeProbs]
  have hkeys : (probKeys utilities.length).length = utilities.length := by simp [probKeys]
  rw [zip_getD_snd _ _ j (by rw [hlenP, hlen]; exact hj) (by rw [hlenP, hlen, hkeys]),
    zip_getD_snd _ _ k (by rw [hlenP, hlen]; exact hk) (by rw [hlenP, hlen, hkeys])]
  rw [computeProbs, getD_map_lt _ V j (by rw [hlen]; exact hj) _ [],
    getD_map_lt _ V k (by rw [hlen]; exact hk) _ []]
  rw [hrow]

/-- Witness for C6: two identical constant utilities over `{"X": [0]}`. -/
theorem C6_symmetry_witness :
    (∀ kv ∈ [("X", ([0] : List ℝ))], kv.2.length = 1) ∧
    ([uConst 3, uConst 3] ≠ ([] : List Utility)) ∧
    evalUtilities [] [("X", [0])] [uConst 3, uConst 3] 1 = some [[3], [3]] ∧
    (0 : Nat) < 2 ∧ (1 : Nat) < 2 ∧
    ([[(3 : ℝ)], [3]].getD 0 [] = [[(3 : ℝ)], [3]].getD 1 []) ∧
    (∃ T, calculate_probabilities [] [("X", [0])] [uConst 3, uConst 3] = some T ∧
      (T.getD 0 ("", [])).2 = (T.getD 1 ("", [])).2) := by
  have h1 : ∀ kv ∈ [("X", ([0] : List ℝ))], kv.2.length = 1 := by
    intro kv hkv
    rcases List.mem_singleton.mp hkv with rfl
    rfl
  have h2 : [uConst 3, uConst 3] ≠ ([] : List Utility) := by simp
  have h3 : evalUtilities [] [("X", [0])] [uConst 3, uConst 3] 1 = some [[3], [3]] := rfl
  exact ⟨h1, h2, h3, by decide, by decide, rfl,
    C6_symmetry [] "X" [0] [] [uConst 3, uConst 3] [[3], [3]] 0 1 h1 h2 h3
      (by decide) (by decide) rfl⟩

/-- Claim C7: with a single utility function (`m = 1`) whose evaluations
succeed, every returned probability equals exactly 1, whatever the utility
values are. -/
theorem C7_single_alternative (p : Params) (k₀ : String) (vs₀ : List ℝ)
    (rest : List (String × List ℝ)) (u : Utility) (row : List ℝ)
    (hshape : ∀ kv ∈ (k₀, vs₀) :: rest, kv.2.length = vs₀.length)
    (heval : evalUtilities p ((k₀, vs₀) :: rest) [u] vs₀.length = some [row]) :
    ∃ T, calculate_probabilities p ((k₀, vs₀) :: rest) [u] = some T ∧
      ∀ i < vs₀.length, probAt T 0 i = 1 := by
  refine ⟨_, calculate_probabilities_eq_some p k₀ vs₀ rest [u] [row] hshape (by simp) heval, ?_⟩
  intro i hi
  rw [probAt_zip_computeProbs [row] vs₀.length [u].length 0 i rfl (by simp) hi]
  show Real.exp (row.getD i 0) / expColSum [row] i = 1
  have h : expColSum [row] i = Real.exp (row.getD i 0) := by
    simp [expColSum]
  rw [h]
  exact div_self (Real.exp_ne_zero _)

/-- Witness for C7 with the constant utility 5 over `{"X": [0]}`. -/
theorem C7_single_alternative_witness :
    (∀ kv ∈ [("X", ([0] : List ℝ))], kv.2.length = 1) ∧
    evalUtilities [] [("X", [0])] [uConst 5] 1 = some [[5]] ∧
    (∃ T, calculate_probabilities [] [("X", [0])] [uConst 5] = some T ∧
      ∀ i < 1, probAt T 0 i = 1) := by
  have h1 : ∀ kv ∈ [("X", ([0] : List ℝ))], kv.2.length = 1 := by
    intro kv hkv
    rcases List.mem_singleton.mp hkv with rfl
    rfl
  have h3 : evalUtilities [] [("X", [0])] [uConst 5] 1 = some [[5]] := rfl
  exact ⟨h1, h3, C7_single_alternative [] "X" [0] [] (uConst 5) [5] h1 h3⟩

/-- Claim C8: on valid inputs the returned mapping has exactly the keys
`"P1".."Pm"` in order, and each key's sequence has length `n`, the
observation count. -/
theorem C8_result_shape (p : Params) (k₀ : String) (vs₀ : List ℝ)
    (rest : List (String × List ℝ)) (utilities : List Utility) (V : List (List ℝ))
    (hshape : ∀ kv ∈ (k₀, vs₀) :: rest, kv.2.length = vs₀.length)
    (hne : utilities ≠ [])
    (heval : evalUtilities p ((k₀, vs₀) :: rest) utilities vs₀.length = some V) :
    ∃ T, calculate_probabilities p ((k₀, vs₀) :: rest) utilities = some T ∧
      T.map Prod.fst = probKeys utilities.length ∧
      ∀ j < utilities.length, ((T.getD j ("", [])).2).length = vs₀.length := by
  have hlen : V.length = utilities.length := mapOpt_length _ _ _ heval
  refine ⟨_, calculate_probabilities_eq_some p k₀ vs₀ rest utilities V hshape hne heval,
    ?_, ?_⟩
  · exact zip_map_fst _ _ (by simp [probKeys, computeProbs, hlen])
  · intro j hj
    exact rowLen_zip_computeProbs V vs₀.length utilities.length j hlen hj

/-- Witness for C8 at `{"X": [0, 1]}` with two constant utilities; the
keys are `["P1", "P2"]` and both sequences have length 2. -/
theorem C8_result_shape_witness :
    (∀ kv ∈ [("X", ([0, 1] : List ℝ))], kv.2.length = 2) ∧
    ([uConst 0, uConst 1] ≠ ([] : List Utility)) ∧
    evalUtilities [] [("X", [0, 1])] [uConst 0, uConst 1] 2 = some [[0, 0], [1, 1]] ∧
    (∃ T, calculate_probabilities [] [("X", [0, 1])] [uConst 0, uConst 1] = some T ∧
      T.map Prod.fst = probKeys 2 ∧
      ∀ j < 2, ((T.getD j ("", [])).2).length = 2) := by
  have h1 : ∀ kv ∈ [("X", ([0, 1] : List ℝ))], kv.2.length = 2 := by
    intro kv hkv
    rcases List.mem_singleton.mp hkv with rfl
    rfl
  have h2 : [uConst 0, uConst 1] ≠ ([] : List Utility) := by simp
  have h3 : evalUtilities [] [("X", [0, 1])] [uConst 0, uConst 1] 2 = some [[0, 0], [1, 1]] := rfl
  exact ⟨h1, h2, h3,
    C8_result_shape [] "X" [0, 1] [] [uConst 0, uConst 1] [[0, 0], [1, 1]] h1 h2 h3⟩

/-- Claim C5: on the spec scenario — 2 observations, 2 alternatives,
utility values `V1 = [0, 1]`, `V2 = [0, 0]` (the first utility reads the
variable `X = [0, 1]`, the second is constantly 0) — the table is
`P1 = [1/2, e/(e+1)]`, `P2 = [1/2, 1/(e+1)]`, each component within 1e-9
(here exactly). -/
theorem C5_scenario :
    ∃ T, calculate_probabilities [] [("X", [0, 1])] [uLookup "X", uConst 0] = some T ∧
      |probAt T 0 0 - 1 / 2| < 1e-9 ∧
      |probAt T 0 1 - Real.exp 1 / (Real.exp 1 + 1)| < 1e-9 ∧
      |probAt T 1 0 - 1 / 2| < 1e-9 ∧
      |probAt T 1 1 - 1 / (Real.exp 1 + 1)| < 1e-9 := by
  have h1 : ∀ kv ∈ [("X", ([0, 1] : List ℝ))], kv.2.length = 2 := by
    intro kv hkv
    rcases List.mem_singleton.mp hkv with rfl
    rfl
  have h3 : evalUtilities [] [("X", [0, 1])] [uLookup "X", uConst 0] 2
      = some [[0, 1], [0, 0]] := rfl
  refine ⟨_, calculate_probabilities_eq_some [] "X" [0, 1] [] [uLookup "X", uConst 0]
    [[0, 1], [0, 0]] h1 (by simp) h3, ?_, ?_, ?_, ?_⟩
  · rw [probAt_zip_computeProbs [[0, 1], [0, 0]] ([(0 : ℝ), 1].length)
      ([uLookup "X", uConst 0].length) 0 0 rfl (by simp) (by simp)]
    norm_num [vAt, expColSum, Real.exp_zero]
  · rw [probAt_zip_computeProbs [[0, 1], [0, 0]] ([(0 : ℝ), 1].length)
      ([uLookup "X", uConst 0].length) 0 1 rfl (by simp) (by simp)]
    norm_num [vAt, expColSum, Real.exp_zero]
  · rw [probAt_zip_computeProbs [[0, 1], [0, 0]] ([(0 : ℝ), 1].length)
      ([uLookup "X", uConst 0].length) 1 0 rfl (by simp) (by simp)]
    norm_num [vAt, expColSum, Real.exp_zero]
  · rw [probAt_zip_computeProbs [[0, 1], [0, 0]] ([(0 : ℝ), 1].length)
      ([uLookup "X", uConst 0].length) 1 1 rfl (by simp) (by simp)]
    norm_num [vAt, expColSum, Real.exp_zero]

/-- Claim C4 counterexample: with a single alternative (`m = 1`) over
`{"X": [0]}`, raising its utility value from 0 to 1 leaves the probability
at exactly 1 — it does not strictly increase, so the claim fails as stated
for valid inputs with one alternative. -/
theorem C4_counterexample :
    (calculate_probabilities [] [("X", [0])] [uConst 0]).map (fun T => probAt T 0 0)
      = some 1 ∧
    (calculate_probabilities [] [("X", [0])] [uConst 1]).map (fun T => probAt T 0 0)
      = some 1 ∧
    ¬ ((1 : ℝ) < 1) := by
  have h1 : ∀ kv ∈ [("X", ([0] : List ℝ))], kv.2.length = 1 := by
    intro kv hkv
    rcases List.mem_singleton.mp hkv with rfl
    rfl
  have e0 : evalUtilities [] [("X", [0])] [uConst 0] 1 = some [[0]] := rfl
  have e1 : evalUtilities [] [("X", [0])] [uConst 1] 1 = some [[1]] := rfl
  have m0 := calculate_probabilities_eq_some [] "X" [0] [] [uConst 0] [[0]] h1 (by simp) e0
  have m1 := calculate_probabilities_eq_some [] "X" [0] [] [uConst 1] [[1]] h1 (by simp) e1
  rw [m0, m1]
  refine ⟨?_, ?_, by norm_num⟩
  · simp only [Option.map_some', Option.some.injEq]
    rw [probAt_zip_computeProbs [[0]] ([(0 : ℝ)].length) ([uConst 0].length) 0 0 rfl
      (by simp) (by simp)]
    norm_num [vAt, expColSum, Real.exp_zero]
  · simp only [Option.map_some', Option.some.injEq]
    rw [probAt_zip_computeProbs [[1]] ([(0 : ℝ)].length) ([uConst 1].length) 0 0 rfl
      (by simp) (by simp)]
    have h : expColSum [[(1 : ℝ)]] 0 = Real.exp 1 := by simp [expColSum]
    rw [h]
    show Real.exp 1 / Real.exp 1 = 1
    exact div_self (Real.exp_ne_zero 1)

/-- Claim C4 as amended: for valid inputs with at least two alternatives
(`m ≥ 2`), increasing the utility value of alternative `j` at observation
`i` while holding every other alternative's value at `i` fixed strictly
increases `P[j][i]` and strictly decreases every other `P[k][i]`; with
`m = 1` the probability is constantly 1 (see the counterexample). -/
theorem C4_monotonicity (p : Params) (k₀ : String) (vs₀ : List ℝ)
    (rest : List (String × List ℝ)) (utilities utilities' : List Utility)
    (V W : List (List ℝ)) (j i : Nat)
    (hshape : ∀ kv ∈ (k₀, vs₀) :: rest, kv.2.length = vs₀.length)
    (hlen : utilities'.length = utilities.length)
    (hm : 2 ≤ utilities.length)
    (heval : evalUtilities p ((k₀, vs₀) :: rest) utilities vs₀.length = some V)
    (heval' : evalUtilities p ((k₀, vs₀) :: rest) utilities' vs₀.length = some W)
    (hj : j < utilities.length) (hi : i < vs₀.length)
    (hgt : vAt V j i < vAt W j i)
    (hoth : ∀ k, k < utilities.length → k ≠ j → vAt W k i = vAt V k i) :
    ∃ T Tnew, calculate_probabilities p ((k₀, vs₀) :: rest) utilities = some T ∧
      calculate_probabilities p ((k₀, vs₀) :: rest) utilities' = some Tnew ∧
      probAt T j i < probAt Tnew j i ∧
      ∀ k, k < utilities.length → k ≠ j → probAt Tnew k i < probAt T k i := by
  have hmV : V.length = utilities.length := mapOpt_length _ _ _ heval
  have hmW : W.length = utilities.length := by
    rw [mapOpt_length _ _ _ heval', hlen]
  have hne : utilities ≠ [] := by
    intro h
    rw [h] at hm
    simp at hm
  have hne' : utilities' ≠ [] := by
    intro h
    rw [h] at hlen
    rw [← hlen] at hm
    simp at hm
  have hmono := softmax_strict_mono V W utilities.length j i hmV hmW hm hj hgt hoth
  refine ⟨_, _, calculate_probabilities_eq_some p k₀ vs₀ rest utilities V hshape hne heval,
    calculate_probabilities_eq_some p k₀ vs₀ rest utilities' W hshape hne' heval', ?_, ?_⟩
  · rw [probAt_zip_computeProbs V vs₀.length utilities.length j i hmV hj hi,
      probAt_zip_computeProbs W vs₀.length utilities'.length j i
        (by rw [hmW]; exact hlen.symm) (by rw [hlen]; exact hj) hi]
    exact hmono.1
  · intro k hk hkj
    rw [probAt_zip_computeProbs V vs₀.length utilities.length k i hmV hk hi,
      probAt_zip_computeProbs W vs₀.length utilities'.length k i
        (by rw [hmW]; exact hlen.symm) (by rw [hlen]; exact hk) hi]
    exact hmono.2 k hk hkj

/-- Witness for C4 with two alternatives over `{"X": [0]}`: raising the
first alternative's utility from 0 to 1 while keeping the second at 0. -/
theorem C4_monotonicity_witness :
    (∀ kv ∈ [("X", ([0] : List ℝ))], kv.2.length = 1) ∧
    [uConst 1, uConst 0].length = [uConst 0, uConst 0].length ∧
    2 ≤ [uConst 0, uConst 0].length ∧
    evalUtilities [] [("X", [0])] [uConst 0, uConst 0] 1 = some [[0], [0]] ∧
    evalUtilities [] [("X", [0])] [uConst 1, uConst 0] 1 = some [[1], [0]] ∧
    (0 : Nat) < [uConst 0, uConst 0].length ∧ (0 : Nat) < 1 ∧
    vAt [[0], [0]] 0 0 < vAt [[1], [0]] 0 0 ∧
    (∀ k, k < [uConst 0, uConst 0].length → k ≠ 0 →
      vAt [[1], [0]] k 0 = vAt [[0], [0]] k 0) ∧
    (∃ T Tnew, calculate_probabilities [] [("X", [0])] [uConst 0, uConst 0] = some T ∧
      calculate_probabilities [] [("X", [0])] [uConst 1, uConst 0] = some Tnew ∧
      probAt T 0 0 < probAt Tnew 0 0 ∧
      ∀ k, k < [uConst 0, uConst 0].length → k ≠ 0 →
        probAt Tnew k 0 < probAt T k 0) := by
  have h1 : ∀ kv ∈ [("X", ([0] : List ℝ))], kv.2.length = 1 := by
    intro kv hkv
    rcases List.mem_singleton.mp hkv with rfl
    rfl
  have h2 : [uConst 1, uConst 0].length = [uConst 0, uConst 0].length := rfl
  have h3 : 2 ≤ [uConst 0, uConst 0].length := by simp
  have h4 : evalUtilities [] [("X", [0])] [uConst 0, uConst 0] 1 = some [[0], [0]] := rfl
  have h5 : evalUtilities [] [("X", [0])] [uConst 1, uConst 0] 1 = some [[1], [0]] := rfl
  have h6 : (0 : Nat) < [uConst 0, uConst 0].length := by simp
  have h7 : (0 : Nat) < 1 := Nat.zero_lt_one
  have h8 : vAt [[0], [0]] 0 0 < vAt [[1], [0]] 0 0 := by
    show (0 : ℝ) < 1
    norm_num
  have h9 : ∀ k, k < [uConst 0, uConst 0].length → k ≠ 0 →
      vAt [[1], [0]] k 0 = vAt [[0], [0]] k 0 := by
    intro k hk hkj
    have hk1 : k = 1 := by
      simp only [List.length_cons, List.length_nil] at hk
      omega
    subst hk1
    rfl
  exact ⟨h1, h2, h3, h4, h5, h6, h7, h8, h9,
    C4_monotonicity [] "X" [0] [] [uConst 0, uConst 0] [uConst 1, uConst 0]
      [[0], [0]] [[1], [0]] 0 0 h1 h2 h3 h4 h5 h6 h7 h8 h9⟩
